import Mathlib

/-!
Verification of the in-process memory cache engine (`src/lib/index.js`).

The engine stores encoded entries under a two-part key (segment, id) in a
two-level map, tracks a running total of accounted bytes, expires entries
lazily, and enforces an optional byte budget in `set` with a single
sweep-then-recheck step.

Modelling conventions:
- JavaScript objects used as maps become association lists
  (`List (String × _)`); JS objects have unique keys, lookup finds the
  first matching key and assignment replaces it in place.
- `Date.now()` becomes an explicit `now : Int` argument; each public
  operation observes a single instant.
- JS numbers holding byte counts become `Int` (the running total is
  mutated by subtraction and can in principle go negative, which `Nat`
  would silently clamp).
- JSON serialization is an external collaborator (spec §1 places the
  serialization format out of scope).  Values are modelled by an
  inductive `JsValue` of JSON data (numbers restricted to integers);
  `JSON.stringify` is implemented concretely to compute byte sizes, and
  a stored textual snapshot is represented by its decode semantics:
  `some v` for the serialization of `v`, `none` for undecodable text,
  so that `JSON.parse (JSON.stringify v)` yields `v` on this domain.
- Node `Buffer` values become `List Nat` byte lists.
-/

namespace MemoryCache

/-- JSON-like values, the domain of cacheable data (numbers restricted to
integers; the engine never interprets values, only sizes them). -/
inductive JsValue : Type where
  | null : JsValue
  | bool : Bool → JsValue
  | num : Int → JsValue
  | str : String → JsValue
  | arr : List JsValue → JsValue
  | obj : List (String × JsValue) → JsValue

/-- One hexadecimal digit character. -/
def hexDigit (n : Nat) : Char :=
  if n < 10 then Char.ofNat (48 + n) else Char.ofNat (87 + n % 16)

/-- Four-digit hexadecimal rendering used by JSON `\uXXXX` escapes. -/
def hex4 (n : Nat) : String :=
  String.mk [hexDigit (n / 4096 % 16), hexDigit (n / 256 % 16),
             hexDigit (n / 16 % 16), hexDigit (n % 16)]

/-- JSON escaping of a single character (quote, backslash, control chars). -/
def escapeChar (ch : Char) : String :=
  if ch = Char.ofNat 34 then String.mk [Char.ofNat 92, Char.ofNat 34]
  else if ch = Char.ofNat 92 then String.mk [Char.ofNat 92, Char.ofNat 92]
  else if ch = Char.ofNat 10 then String.mk [Char.ofNat 92, Char.ofNat 110]
  else if ch = Char.ofNat 13 then String.mk [Char.ofNat 92, Char.ofNat 114]
  else if ch = Char.ofNat 9 then String.mk [Char.ofNat 92, Char.ofNat 116]
  else if ch.toNat < 32 then String.mk [Char.ofNat 92, Char.ofNat 117] ++ hex4 ch.toNat
  else String.singleton ch

/-- JSON encoding of a string literal, quotes included. -/
def encodeString (s : String) : String :=
  String.singleton (Char.ofNat 34) ++ String.join (s.data.map escapeChar)
    ++ String.singleton (Char.ofNat 34)

mutual

/-- `JSON.stringify` on the modelled value domain; used only to compute
the byte size of a textual snapshot (`Buffer.byteLength(JSON.stringify(value))`). -/
def jsonStringify : JsValue → String
  | JsValue.null => "null"
  | JsValue.bool true => "true"
  | JsValue.bool false => "false"
  | JsValue.num n => toString n
  | JsValue.str s => encodeString s
  | JsValue.arr xs => "[" ++ stringifyArr xs ++ "]"
  | JsValue.obj fs => "\x7b" ++ stringifyObj fs ++ "\x7d"

/-- Comma-separated serialization of array elements. -/
def stringifyArr : List JsValue → String
  | [] => ""
  | [x] => jsonStringify x
  | x :: y :: t => jsonStringify x ++ "," ++ stringifyArr (y :: t)

/-- Comma-separated serialization of object fields. -/
def stringifyObj : List (String × JsValue) → String
  | [] => ""
  | [(k, v)] => encodeString k ++ ":" ++ jsonStringify v
  | (k, v) :: f :: t => encodeString k ++ ":" ++ jsonStringify v ++ "," ++ stringifyObj (f :: t)

end

/-- Node's `Buffer.prototype.toJSON`, the value `JSON.stringify` sees when
a raw buffer is serialized with mixed content disabled. -/
def bufferJson (bytes : List Nat) : JsValue :=
  JsValue.obj [("type", JsValue.str "Buffer"),
               ("data", JsValue.arr (bytes.map (fun b => JsValue.num (Int.ofNat b))))]

/-- Caller-supplied values: raw binary buffers, JSON-serializable data, or
data `JSON.stringify` cannot turn into a string (e.g. `undefined`), for
which `Buffer.byteLength` then throws inside the entry constructor. -/
inductive Value : Type where
  | buf : List Nat → Value
  | json : JsValue → Value
  | unserializable : Value

/-- The serialization `JSON.stringify` produces for a non-buffer-path value,
if any. -/
def jsonOfValue : Value → Option JsValue
  | Value.buf bytes => some (bufferJson bytes)
  | Value.json v => some v
  | Value.unserializable => none

/-- Two-part cache key. -/
structure CacheKey : Type where
  segment : String
  id : String
deriving DecidableEq

/-- A stored snapshot: a copied buffer, or serialized text represented by
its decode semantics (`some v` decodes to `v`; `none` is undecodable). -/
inductive Item : Type where
  | buffer : List Nat → Item
  | text : Option JsValue → Item

/-- A cache entry as built by `internals.MemoryCacheEntry`. -/
structure MemoryCacheEntry : Type where
  item : Item
  stored : Int
  ttl : Int
  expireTime : Int
  byteSize : Nat

/-- Error outcomes surfaced through operation callbacks. -/
inductive CacheError : Type where
  | notStarted : CacheError
  | invalidTTL : CacheError
  | encodingFailure : CacheError
  | badValueContent : CacheError
  | cacheFull : CacheError
deriving DecidableEq

/-- The `internals.MemoryCacheEntry` constructor: snapshot the value (buffer
copy on the mixed-content path, `JSON.stringify` otherwise), record times,
and compute the accounted size `144 + valueByteSize + byteLength(segment)
+ byteLength(id)`.  Fails when serialization produces no string. -/
def memoryCacheEntry (key : CacheKey) (value : Value) (ttl : Int)
    (allowMixedContent : Bool) (now : Int) : Except CacheError MemoryCacheEntry :=
  match allowMixedContent, value with
  | true, Value.buf bytes =>
      Except.ok
        { item := Item.buffer bytes
          stored := now
          ttl := ttl
          expireTime := now + ttl
          byteSize := 144 + bytes.length + key.segment.utf8ByteSize + key.id.utf8ByteSize }
  | _, v =>
      match jsonOfValue v with
      | none => Except.error CacheError.encodingFailure
      | some j =>
          Except.ok
            { item := Item.text (some j)
              stored := now
              ttl := ttl
              expireTime := now + ttl
              byteSize := 144 + (jsonStringify j).utf8ByteSize
                            + key.segment.utf8ByteSize + key.id.utf8ByteSize }

/-- A segment: the JS object mapping ids to entries. -/
abbrev Segment : Type := List (String × MemoryCacheEntry)

/-- The store: the JS object mapping segment names to segments. -/
abbrev Store : Type := List (String × Segment)

/-- Property read on a JS object: first binding of the key, if any. -/
def alookup {α : Type} : List (String × α) → String → Option α
  | [], _ => none
  | (k, v) :: t, k0 => if k = k0 then some v else alookup t k0

/-- Property write on a JS object: replace the binding in place, or append. -/
def aset {α : Type} : List (String × α) → String → α → List (String × α)
  | [], k0, v0 => [(k0, v0)]
  | (k, v) :: t, k0, v0 => if k = k0 then (k0, v0) :: t else (k, v) :: aset t k0 v0

/-- Property delete on a JS object: remove the binding, if present. -/
def aremove {α : Type} : List (String × α) → String → List (String × α)
  | [], _ => []
  | (k, v) :: t, k0 => if k = k0 then t else (k, v) :: aremove t k0

/-- Accounted bytes physically present in one segment. -/
def segBytes (seg : Segment) : Int :=
  (seg.map (fun kv => (kv.2.byteSize : Int))).sum

/-- Accounted bytes physically present in the whole store. -/
def storeBytes (store : Store) : Int :=
  (store.map (fun sp => segBytes sp.2)).sum

/-- Connection state: configuration, the optional store (`null` when the
engine is stopped), and the running byte total. -/
structure Connection : Type where
  maxByteSize : Nat
  allowMixedContent : Bool
  cache : Option Store
  byteSize : Int

/-- A fresh connection as built by the constructor (cache unset until start). -/
def mkConnection (maxByteSize : Nat) (allowMixedContent : Bool) : Connection :=
  { maxByteSize := maxByteSize
    allowMixedContent := allowMixedContent
    cache := none
    byteSize := 0 }

/-- `start`: allocate an empty store and zero the total unless already started. -/
def start (c : Connection) : Except CacheError Unit × Connection :=
  match c.cache with
  | none => (Except.ok (), { c with cache := some [], byteSize := 0 })
  | some _ => (Except.ok (), c)

/-- `stop`: discard the store and zero the total. -/
def stop (c : Connection) : Connection :=
  { c with cache := none, byteSize := 0 }

/-- `isReady`: whether the engine is started. -/
def isReady (c : Connection) : Bool :=
  c.cache.isSome

/-- The expiry test used by readers and the sweeper: `Date.now() > expireTime`. -/
def isExpired (now : Int) (e : MemoryCacheEntry) : Bool :=
  decide (e.expireTime < now)

/-- One segment after the sweep loop dropped its expired entries. -/
def sweepSegment (now : Int) (seg : Segment) : Segment :=
  seg.filter (fun kv => !isExpired now kv.2)

/-- The store after `flushExpiredCacheItems` dropped every expired entry. -/
def sweepStore (now : Int) (store : Store) : Store :=
  store.map (fun sp => (sp.1, sweepSegment now sp.2))

/-- Accounted bytes of the expired entries a sweep at `now` would drop. -/
def expiredBytes (now : Int) (store : Store) : Int :=
  (store.map (fun sp =>
    (sp.2.filter (fun kv => isExpired now kv.2)).map (fun kv => (kv.2.byteSize : Int)) |>.sum)).sum

/-- `flushExpiredCacheItems` acting on the store/total pair: each `dropKey`
of an expired entry removes it and subtracts its `byteSize`. -/
def sweepPair (now : Int) (p : Store × Int) : Store × Int :=
  (sweepStore now p.1, p.2 - expiredBytes now p.1)

/-- `flushExpiredCacheItems` on the connection (no-op when stopped). -/
def flushExpiredCacheItems (c : Connection) (now : Int) : Connection :=
  match c.cache with
  | none => c
  | some store =>
      { c with cache := some (sweepStore now store)
               byteSize := c.byteSize - expiredBytes now store }

/-- `dropKey`: the store after deleting `key.id` from its segment (a no-op
when the segment is absent; the emptied segment object is kept). -/
def dropKeyStore (store : Store) (key : CacheKey) : Store :=
  match alookup store key.segment with
  | none => store
  | some seg => aset store key.segment (aremove seg key.id)

/-- `dropKey`: the byte total after subtracting the dropped entry, if any. -/
def dropKeyBytes (store : Store) (byteSize : Int) (key : CacheKey) : Int :=
  match alookup store key.segment with
  | none => byteSize
  | some seg =>
      match alookup seg key.id with
      | none => byteSize
      | some e => byteSize - e.byteSize

/-- What a successful `get` hands to its callback. -/
structure CachedValue : Type where
  item : Value
  stored : Int
  ttl : Int

/-- `get`: lookup, lazy expiry (dropping the entry), then decode. -/
def get (c : Connection) (key : CacheKey) (now : Int) :
    Except CacheError (Option CachedValue) × Connection :=
  match c.cache with
  | none => (Except.error CacheError.notStarted, c)
  | some store =>
      match alookup store key.segment with
      | none => (Except.ok none, c)
      | some seg =>
          match alookup seg key.id with
          | none => (Except.ok none, c)
          | some envelope =>
              if envelope.expireTime < now then
                (Except.ok none,
                 { c with cache := some (dropKeyStore store key)
                          byteSize := dropKeyBytes store c.byteSize key })
              else
                match envelope.item with
                | Item.buffer bytes =>
                    (Except.ok (some { item := Value.buf bytes
                                       stored := envelope.stored
                                       ttl := envelope.ttl }), c)
                | Item.text (some v) =>
                    (Except.ok (some { item := Value.json v
                                       stored := envelope.stored
                                       ttl := envelope.ttl }), c)
                | Item.text none => (Except.error CacheError.badValueContent, c)

/-- The segment object `set` works on (created empty on first use). -/
def segOf (store : Store) (s : String) : Segment :=
  (alookup store s).getD []

/-- The store after `set`'s unconditional segment (re)assignment. -/
def preStore (store : Store) (key : CacheKey) : Store :=
  aset store key.segment (segOf store key.segment)

/-- Replacement accounting: subtract the cached item's bytes only when it
exists and has not yet expired (`Date.now() < cachedItem.expireTime`). -/
def replaceByteSize (byteSize : Int) (cachedItem : Option MemoryCacheEntry) (now : Int) : Int :=
  match cachedItem with
  | some old => if now < old.expireTime then byteSize - old.byteSize else byteSize
  | none => byteSize

/-- The byte total `set` holds after replacement accounting. -/
def preBytes (c : Connection) (store : Store) (key : CacheKey) (now : Int) : Int :=
  replaceByteSize c.byteSize (alookup (segOf store key.segment) key.id) now

/-- The budget test `this.byteSize + envelope.byteSize > this.settings.maxByteSize`,
guarded by `if (this.settings.maxByteSize)`. -/
def overBudget (maxByteSize : Nat) (byteSize : Int) (envBytes : Nat) : Bool :=
  (maxByteSize != 0) && decide ((maxByteSize : Int) < byteSize + (envBytes : Int))

/-- The store/total pair after the pressure-triggered sweep, if any. -/
def afterPressure (c : Connection) (store : Store) (key : CacheKey)
    (envelope : MemoryCacheEntry) (now : Int) : Store × Int :=
  if overBudget c.maxByteSize (preBytes c store key now) envelope.byteSize
  then sweepPair now (preStore store key, preBytes c store key now)
  else (preStore store key, preBytes c store key now)

/-- Insertion of the new envelope into its segment. -/
def insertEnv (store : Store) (key : CacheKey) (envelope : MemoryCacheEntry) : Store :=
  aset store key.segment (aset (segOf store key.segment) key.id envelope)

/-- The tail of `set` once the envelope exists: replacement accounting,
budget check, one sweep, recheck, then insert or fail. -/
def setStore (c : Connection) (store : Store) (key : CacheKey)
    (envelope : MemoryCacheEntry) (now : Int) : Except CacheError Unit × Connection :=
  if overBudget c.maxByteSize (afterPressure c store key envelope now).2 envelope.byteSize then
    (Except.error CacheError.cacheFull,
     { c with cache := some (afterPressure c store key envelope now).1
              byteSize := (afterPressure c store key envelope now).2 })
  else
    (Except.ok (),
     { c with cache := some (insertEnv (afterPressure c store key envelope now).1 key envelope)
              byteSize := (afterPressure c store key envelope now).2 + envelope.byteSize })

/-- `set`: started guard, TTL guard, entry construction, then `setStore`. -/
def set (c : Connection) (key : CacheKey) (value : Value) (ttl : Int) (now : Int) :
    Except CacheError Unit × Connection :=
  match c.cache with
  | none => (Except.error CacheError.notStarted, c)
  | some store =>
      if 2147483647 < ttl then (Except.error CacheError.invalidTTL, c)
      else
        match memoryCacheEntry key value ttl c.allowMixedContent now with
        | Except.error e => (Except.error e, c)
        | Except.ok envelope => setStore c store key envelope now

/-- `drop`: started guard, then `dropKey` (absent keys succeed silently). -/
def drop (c : Connection) (key : CacheKey) : Except CacheError Unit × Connection :=
  match c.cache with
  | none => (Except.error CacheError.notStarted, c)
  | some store =>
      (Except.ok (),
       { c with cache := some (dropKeyStore store key)
                byteSize := dropKeyBytes store c.byteSize key })

/-- One public operation, with its observation instant where relevant. -/
inductive Op : Type where
  | start : Op
  | stop : Op
  | get : CacheKey → Int → Op
  | set : CacheKey → Value → Int → Int → Op
  | drop : CacheKey → Op

/-- State transition of one operation (callback results discarded). -/
def applyOp (c : Connection) : Op → Connection
  | Op.start => (start c).2
  | Op.stop => stop c
  | Op.get key now => (get c key now).2
  | Op.set key value ttl now => (set c key value ttl now).2
  | Op.drop key => (drop c key).2

/-- Run a sequence of operations from a given state. -/
def runOps (c : Connection) : List Op → Connection
  | [] => c
  | op :: t => runOps (applyOp c op) t

/-- Accounted bytes of the entries physically present in the connection. -/
def physBytes (c : Connection) : Int :=
  match c.cache with
  | none => 0
  | some store => storeBytes store

/-- The canonical encoding a value survives the store/read cycle as: the
byte-identical buffer on the mixed-content path, the structured (JSON)
round-trip image otherwise.  Follows the spec's round-trip wording. -/
def canonicalValue (allowMixedContent : Bool) : Value → Value
  | Value.buf bytes =>
      if allowMixedContent then Value.buf bytes else Value.json (bufferJson bytes)
  | Value.json v => Value.json v
  | Value.unserializable => Value.unserializable

/-! ### Association-list lemmas -/

theorem alookup_aset_self {α : Type} (l : List (String × α)) (k : String) (v : α) :
    alookup (aset l k v) k = some v := by
  induction l with
  | nil => simp [aset, alookup]
  | cons kv t ih =>
      by_cases h : kv.1 = k
      · simp [aset, h, alookup]
      · simp [aset, h, alookup, ih]

theorem alookup_aset_ne {α : Type} (l : List (String × α)) (k k0 : String) (v : α)
    (h : k0 ≠ k) : alookup (aset l k v) k0 = alookup l k0 := by
  have h' : k ≠ k0 := Ne.symm h
  induction l with
  | nil => simp [aset, alookup, h']
  | cons kv t ih =>
      by_cases hk : kv.1 = k
      · simp [aset, hk, alookup, h']
      · simp only [aset]
        rw [if_neg hk]
        by_cases hk0 : kv.1 = k0
        · simp [alookup, hk0]
        · simp [alookup, hk0, ih]

/-! ### Byte-sum lemmas -/

theorem sum_map_filter_split {α : Type} (p : α → Bool) (f : α → Int) (l : List α) :
    (l.map f).sum = ((l.filter (fun a => !p a)).map f).sum + ((l.filter p).map f).sum := by
  induction l with
  | nil => simp
  | cons x t ih =>
      by_cases h : p x <;> simp [List.filter_cons, h, ih] <;> omega

theorem segBytes_split (now : Int) (seg : Segment) :
    segBytes seg = segBytes (sweepSegment now seg)
      + ((seg.filter (fun kv => isExpired now kv.2)).map (fun kv => (kv.2.byteSize : Int))).sum := by
  simpa [segBytes, sweepSegment] using
    sum_map_filter_split (fun kv => isExpired now kv.2)
      (fun kv => (kv.2.byteSize : Int)) seg

theorem storeBytes_split (now : Int) (store : Store) :
    storeBytes store = storeBytes (sweepStore now store) + expiredBytes now store := by
  induction store with
  | nil => simp [storeBytes, sweepStore, expiredBytes]
  | cons sp t ih =>
      have h := segBytes_split now sp.2
      simp only [storeBytes, sweepStore, expiredBytes, List.map_cons, List.sum_cons] at ih h ⊢
      omega

theorem expiredBytes_nonneg (now : Int) (store : Store) : 0 ≤ expiredBytes now store := by
  unfold expiredBytes
  apply List.sum_nonneg
  intro x hx
  simp only [List.mem_map] at hx
  obtain ⟨sp, hsp, rfl⟩ := hx
  apply List.sum_nonneg
  intro y hy
  simp only [List.mem_map] at hy
  obtain ⟨kv, hkv, rfl⟩ := hy
  exact Int.ofNat_nonneg _

theorem alookup_sweepStore (now : Int) (store : Store) (s : String) :
    alookup (sweepStore now store) s = (alookup store s).map (sweepSegment now) := by
  unfold sweepStore
  induction store with
  | nil => rfl
  | cons sp t ih =>
      by_cases h : sp.1 = s
      · simp [alookup, h]
      · simp [alookup, h, ih]

/-! ### Entry-constructor lemmas -/

theorem memoryCacheEntry_ok_fields (key : CacheKey) (value : Value) (ttl : Int)
    (amc : Bool) (now : Int) (e : MemoryCacheEntry)
    (h : memoryCacheEntry key value ttl amc now = Except.ok e) :
    e.stored = now ∧ e.ttl = ttl ∧ e.expireTime = now + ttl := by
  unfold memoryCacheEntry at h
  split at h
  · cases h
    exact ⟨rfl, rfl, rfl⟩
  · split at h
    · cases h
    · cases h
      exact ⟨rfl, rfl, rfl⟩

theorem memoryCacheEntry_error_is_encoding (key : CacheKey) (value : Value) (ttl : Int)
    (amc : Bool) (now : Int) (e : CacheError)
    (h : memoryCacheEntry key value ttl amc now = Except.error e) :
    e = CacheError.encodingFailure := by
  unfold memoryCacheEntry at h
  split at h
  · cases h
  · split at h
    · cases h
      rfl
    · cases h

/-- How a stored snapshot reads back through `get`'s decode step. -/
def decodeItem : Item → Option Value
  | Item.buffer bytes => some (Value.buf bytes)
  | Item.text (some v) => some (Value.json v)
  | Item.text none => none

theorem memoryCacheEntry_ok_item (key : CacheKey) (value : Value) (ttl : Int)
    (amc : Bool) (now : Int) (e : MemoryCacheEntry)
    (h : memoryCacheEntry key value ttl amc now = Except.ok e) :
    decodeItem e.item = some (canonicalValue amc value) := by
  unfold memoryCacheEntry at h
  match amc, value with
  | true, Value.buf bytes =>
      cases h
      rfl
  | true, Value.json v =>
      simp only [jsonOfValue] at h
      cases h
      rfl
  | true, Value.unserializable =>
      simp only [jsonOfValue] at h
      cases h
  | false, Value.buf bytes =>
      simp only [jsonOfValue] at h
      cases h
      rfl
  | false, Value.json v =>
      simp only [jsonOfValue] at h
      cases h
      rfl
  | false, Value.unserializable =>
      simp only [jsonOfValue] at h
      cases h

theorem overBudget_iff (maxB : Nat) (b : Int) (n : Nat) :
    overBudget maxB b n = true ↔ (maxB ≠ 0 ∧ (maxB : Int) < b + (n : Int)) := by
  simp [overBudget]

/-! ### Concrete fixtures used by closed theorems and witnesses -/

/-- A one-byte JSON payload; its entry under key `("a", "b")` weighs
`144 + 1 + 1 + 1 = 147` accounted bytes. -/
def smallVal : Value := Value.json (JsValue.num 1)

/-- A 60-character string payload; serialized with quotes it weighs 62
bytes, so its entry under `("a", "b")` weighs `144 + 62 + 1 + 1 = 208`. -/
def bigVal : Value :=
  Value.json (JsValue.str "aaaaaaaaaaaaaaaaaaaaaaaaaaaaaaaaaaaaaaaaaaaaaaaaaaaaaaaaaaaa")

/-- The key used by the concrete traces. -/
def keyAB : CacheKey := ⟨"a", "b"⟩

/-- A stored textual entry: payload `1`, stored at 0 with ttl 5. -/
def entryEx : MemoryCacheEntry :=
  { item := Item.text (some (JsValue.num 1))
    stored := 0
    ttl := 5
    expireTime := 5
    byteSize := 147 }

/-- A started connection holding `entryEx` under `("a", "b")`. -/
def connEx : Connection := ⟨104857600, false, some [("a", [("b", entryEx)])], 147⟩

/-- A stored buffer entry: three payload bytes, stored at 0 with ttl 5. -/
def bufEntryEx : MemoryCacheEntry :=
  { item := Item.buffer [1, 2, 3]
    stored := 0
    ttl := 5
    expireTime := 5
    byteSize := 149 }

/-- A started mixed-content connection holding `bufEntryEx` under `("a", "b")`. -/
def bufConnEx : Connection := ⟨104857600, true, some [("a", [("b", bufEntryEx)])], 149⟩

/-- The operation sequence exhibiting the accounting leak: two successful
`set` calls on the same key with `ttl = 0`, the second one millisecond
after the first, so the first entry is expired-but-unswept when it is
overwritten. -/
def leakTrace : List Op :=
  [Op.start, Op.set keyAB smallVal 0 0, Op.set keyAB smallVal 0 1]

/-- The engine state after the leak trace. -/
def leakConn : Connection := runOps (mkConnection 104857600 false) leakTrace

/-- A started 200-byte-budget engine holding one live 147-byte entry. -/
def c2Before : Connection :=
  (set ((start (mkConnection 200 false)).2) keyAB smallVal 1000 0).2

/-- The failing oversized `set` on `c2Before`. -/
def c2Call : Except CacheError Unit × Connection := set c2Before keyAB bigVal 1000 1

/-! ### Claim theorems -/

/-- Claim C1 (code bug): the invariant `totalByteSize = sum of byteSize over
physically present entries` is violated on a reachable state.  After
`start`, a successful `set(("a","b"), v, ttl := 0)` at time 0 and a second
successful `set` of the same key at time 1, the expired first entry is
physically overwritten without its bytes being subtracted: the running
total is 294 while the store physically holds a single 147-byte entry. -/
theorem c1_totalByteSize_leak :
    (set ((start (mkConnection 104857600 false)).2) keyAB smallVal 0 0).1 = Except.ok ()
    ∧ (set (runOps (mkConnection 104857600 false) [Op.start, Op.set keyAB smallVal 0 0])
        keyAB smallVal 0 1).1 = Except.ok ()
    ∧ leakConn.byteSize = 294
    ∧ physBytes leakConn = 147
    ∧ leakConn.byteSize ≠ physBytes leakConn :=
  ⟨rfl, rfl, rfl, by decide, by decide⟩

/-- Claim C2 (code bug): a `set` failing with the cache-full error does not
leave the pre-call state intact up to one sweep.  With budget 200 and one
live 147-byte entry under the key, an oversized overwrite attempt fails
with cache-full, yet the accounted total drops from 147 to 0 while the
old entry stays physically present (147 bytes); the permitted sweep
explains none of it, being the identity here. -/
theorem c2_failed_set_mutates_accounting :
    (set ((start (mkConnection 200 false)).2) keyAB smallVal 1000 0).1 = Except.ok ()
    ∧ c2Before.byteSize = 147
    ∧ physBytes c2Before = 147
    ∧ flushExpiredCacheItems c2Before 1 = c2Before
    ∧ c2Call.1 = Except.error CacheError.cacheFull
    ∧ c2Call.2.byteSize = 0
    ∧ physBytes c2Call.2 = 147 :=
  ⟨rfl, rfl, by decide, rfl, rfl, rfl, by decide⟩

/-- Claim C4, counterexample: an entry whose `expireTime` equals the current
time is NOT treated as expired.  `entryEx` has `expireAt = 5 ≤ now = 5`,
yet `get` at time 5 returns the value and a sweep at time 5 keeps the
entry, because the code tests `Date.now() > expireTime` strictly. -/
theorem c4_boundary_counterexample :
    entryEx.expireTime ≤ 5
    ∧ (get connEx keyAB 5).1
        = Except.ok (some { item := Value.json (JsValue.num 1), stored := 0, ttl := 5 })
    ∧ flushExpiredCacheItems connEx 5 = connEx :=
  ⟨by decide, rfl, rfl⟩

/-- Claim C4, amended (strict bound): an entry is treated as expired by
readers exactly when `expireAt < now`.  Then: (a) `get` on such an entry
returns absent, removes it and subtracts its bytes; (b) segment lookup
commutes with the sweep; (c) the sweep retains exactly the entries with
`¬ expireAt < now`; (d) the sweep subtracts exactly the accounted bytes of
the removed entries, which equal the physical bytes they occupied. -/
theorem c4_strict_expiry_amended :
    (∀ (c : Connection) (store : Store) (seg : Segment) (e : MemoryCacheEntry)
        (key : CacheKey) (now : Int),
        c.cache = some store → alookup store key.segment = some seg →
        alookup seg key.id = some e → e.expireTime < now →
        get c key now = (Except.ok none,
          { c with cache := some (aset store key.segment (aremove seg key.id))
                   byteSize := c.byteSize - (e.byteSize : Int) }))
    ∧ (∀ (now : Int) (store : Store) (s : String),
        alookup (sweepStore now store) s = (alookup store s).map (sweepSegment now))
    ∧ (∀ (now : Int) (seg : Segment) (i : String) (e : MemoryCacheEntry),
        (i, e) ∈ sweepSegment now seg ↔ ((i, e) ∈ seg ∧ ¬ e.expireTime < now))
    ∧ (∀ (c : Connection) (store : Store) (now : Int), c.cache = some store →
        flushExpiredCacheItems c now
          = { c with cache := some (sweepStore now store)
                     byteSize := c.byteSize - expiredBytes now store }
          ∧ storeBytes store = storeBytes (sweepStore now store) + expiredBytes now store) := by
  refine ⟨?_, ?_, ?_, ?_⟩
  · intro c store seg e key now hc hseg hid hexp
    simp only [get, hc, hseg, hid]
    rw [if_pos hexp]
    simp only [dropKeyStore, dropKeyBytes, hseg, hid]
  · intro now store s
    exact alookup_sweepStore now store s
  · intro now seg i e
    simp [sweepSegment, List.mem_filter, isExpired]
  · intro c store now hc
    refine ⟨?_, storeBytes_split now store⟩
    simp only [flushExpiredCacheItems, hc]

/-- Witness for C4's amended theorem: `entryEx` expired strictly before
time 6, so `get` at 6 drops it and a sweep at 6 removes it. -/
theorem c4_strict_expiry_witness :
    get connEx keyAB 6 = (Except.ok none,
      { connEx with
          cache := some (aset [("a", [("b", entryEx)])] keyAB.segment
                          (aremove [("b", entryEx)] keyAB.id))
          byteSize := connEx.byteSize - (entryEx.byteSize : Int) })
    ∧ flushExpiredCacheItems connEx 6
        = { connEx with
              cache := some (sweepStore 6 [("a", [("b", entryEx)])])
              byteSize := connEx.byteSize - expiredBytes 6 [("a", [("b", entryEx)])] } :=
  ⟨c4_strict_expiry_amended.1 connEx [("a", [("b", entryEx)])] [("b", entryEx)] entryEx keyAB 6
      rfl rfl rfl (by decide),
   (c4_strict_expiry_amended.2.2.2 connEx [("a", [("b", entryEx)])] 6 rfl).1⟩

/-- Evaluation of `setStore`'s first step on a freshly started empty store. -/
theorem set_on_empty (maxB : Nat) (amc : Bool) (key : CacheKey) (value : Value)
    (ttl now : Int)
    (h : (set ⟨maxB, amc, some [], 0⟩ key value ttl now).1 = Except.ok ()) :
    ∃ e, memoryCacheEntry key value ttl amc now = Except.ok e ∧
      (set ⟨maxB, amc, some [], 0⟩ key value ttl now).2
        = ⟨maxB, amc, some [(key.segment, [(key.id, e)])], (e.byteSize : Int)⟩ := by
  simp only [set] at h ⊢
  by_cases httl : 2147483647 < ttl
  · rw [if_pos httl] at h
    simp at h
  · rw [if_neg httl] at h ⊢
    cases henc : memoryCacheEntry key value ttl amc now with
    | error e =>
        rw [henc] at h
        simp at h
    | ok envelope =>
        simp only [henc] at h ⊢
        refine ⟨envelope, rfl, ?_⟩
        have hap1 : (afterPressure ⟨maxB, amc, some [], 0⟩ [] key envelope now).1
            = [(key.segment, [])] := by
          unfold afterPressure
          split <;> rfl
        have hap2 : (afterPressure ⟨maxB, amc, some [], 0⟩ [] key envelope now).2 = 0 := by
          unfold afterPressure
          split <;> rfl
        unfold setStore at h ⊢
        rw [hap1, hap2] at h ⊢
        by_cases hb : overBudget maxB 0 envelope.byteSize = true
        · rw [if_pos hb] at h
          simp at h
        · rw [if_neg hb]
          simp [insertEnv, segOf, alookup, aset]

/-- Evaluation of `set` on a store holding exactly one entry, under the same
key, that is still live at the call's instant. -/
theorem set_on_singleton_live (maxB : Nat) (amc : Bool) (key : CacheKey)
    (e1 : MemoryCacheEntry) (value : Value) (ttl now : Int)
    (hlive : now < e1.expireTime)
    (h : (set ⟨maxB, amc, some [(key.segment, [(key.id, e1)])], (e1.byteSize : Int)⟩
            key value ttl now).1 = Except.ok ()) :
    ∃ e2, memoryCacheEntry key value ttl amc now = Except.ok e2 ∧
      (set ⟨maxB, amc, some [(key.segment, [(key.id, e1)])], (e1.byteSize : Int)⟩
          key value ttl now).2
        = ⟨maxB, amc, some [(key.segment, [(key.id, e2)])], (e2.byteSize : Int)⟩ := by
  have hnexp : ¬ e1.expireTime < now := by omega
  have hsegOf : segOf [(key.segment, [(key.id, e1)])] key.segment = [(key.id, e1)] := by
    simp [segOf, alookup]
  have hpreS : preStore [(key.segment, [(key.id, e1)])] key
      = [(key.segment, [(key.id, e1)])] := by
    simp [preStore, hsegOf, aset]
  have hsweep1 : sweepStore now [(key.segment, [(key.id, e1)])]
      = [(key.segment, [(key.id, e1)])] := by
    simp [sweepStore, sweepSegment, isExpired, hnexp]
  have hexp0 : expiredBytes now [(key.segment, [(key.id, e1)])] = 0 := by
    simp [expiredBytes, isExpired, hnexp]
  simp only [set] at h ⊢
  by_cases httl : 2147483647 < ttl
  · rw [if_pos httl] at h
    simp at h
  · rw [if_neg httl] at h ⊢
    cases henc : memoryCacheEntry key value ttl amc now with
    | error e =>
        rw [henc] at h
        simp at h
    | ok envelope =>
        simp only [henc] at h ⊢
        refine ⟨envelope, rfl, ?_⟩
        have hpreB : preBytes ⟨maxB, amc, some [(key.segment, [(key.id, e1)])],
            (e1.byteSize : Int)⟩ [(key.segment, [(key.id, e1)])] key now = 0 := by
          simp [preBytes, hsegOf, alookup, replaceByteSize, hlive]
        have hap1 : (afterPressure ⟨maxB, amc, some [(key.segment, [(key.id, e1)])],
            (e1.byteSize : Int)⟩ [(key.segment, [(key.id, e1)])] key envelope now).1
            = [(key.segment, [(key.id, e1)])] := by
          unfold afterPressure
          split <;> simp [sweepPair, hpreS, hsweep1]
        have hap2 : (afterPressure ⟨maxB, amc, some [(key.segment, [(key.id, e1)])],
            (e1.byteSize : Int)⟩ [(key.segment, [(key.id, e1)])] key envelope now).2 = 0 := by
          unfold afterPressure
          split <;> simp [sweepPair, hpreS, hpreB, hexp0]
        unfold setStore at h ⊢
        rw [hap1, hap2] at h ⊢
        by_cases hb : overBudget maxB 0 envelope.byteSize = true
        · rw [if_pos hb] at h
          simp at h
        · rw [if_neg hb]
          simp [insertEnv, segOf, alookup, aset]

/-- The state after one successful `set` of `smallVal` with `ttl = 0` at
time 0 on a freshly started engine. -/
def c3Mid : Connection :=
  (set ((start (mkConnection 104857600 false)).2) keyAB smallVal 0 0).2

/-- The entry the second ttl-0 `set` stores at time 1. -/
def c3Entry2 : MemoryCacheEntry :=
  { item := Item.text (some (JsValue.num 1))
    stored := 1
    ttl := 0
    expireTime := 1
    byteSize := 147 }

/-- Claim C3, counterexample: with `ttl = 0` (inside the stated bounds) the
overwrite property fails.  Both `set` calls succeed and exactly one entry
remains stored for the key, but `totalByteSize` is 294 — the sum of both
entries' sizes — rather than the 147 bytes of v2's entry alone, because
the expired first entry was overwritten without its bytes being
subtracted. -/
theorem c3_overwrite_expired_counterexample :
    (set ((start (mkConnection 104857600 false)).2) keyAB smallVal 0 0).1 = Except.ok ()
    ∧ (set c3Mid keyAB smallVal 0 1).1 = Except.ok ()
    ∧ (set c3Mid keyAB smallVal 0 1).2.cache = some [("a", [("b", c3Entry2)])]
    ∧ c3Entry2.byteSize = 147
    ∧ (set c3Mid keyAB smallVal 0 1).2.byteSize = 294 :=
  ⟨rfl, rfl, rfl, rfl, rfl⟩

/-- Claim C3, amended: if additionally the first entry is still live when
the second `set` runs (`now2 < now1 + ttl`), then two successful `set`
calls on the same key from a freshly started engine leave exactly one
entry for the key, and the total equals v2's accounted size alone. -/
theorem c3_overwrite_accounting_amended (maxB : Nat) (amc : Bool) (key : CacheKey)
    (v1 v2 : Value) (ttl now1 now2 : Int)
    (h1 : (set ((start (mkConnection maxB amc)).2) key v1 ttl now1).1 = Except.ok ())
    (h2 : (set ((set ((start (mkConnection maxB amc)).2) key v1 ttl now1).2)
            key v2 ttl now2).1 = Except.ok ())
    (hlive : now2 < now1 + ttl) :
    ∃ e2, memoryCacheEntry key v2 ttl amc now2 = Except.ok e2 ∧
      (set ((set ((start (mkConnection maxB amc)).2) key v1 ttl now1).2)
          key v2 ttl now2).2
        = ⟨maxB, amc, some [(key.segment, [(key.id, e2)])], (e2.byteSize : Int)⟩ := by
  have hc0 : (start (mkConnection maxB amc)).2 = ⟨maxB, amc, some [], 0⟩ := rfl
  rw [hc0] at h1 h2 ⊢
  obtain ⟨e1, henc1, hstate1⟩ := set_on_empty maxB amc key v1 ttl now1 h1
  rw [hstate1] at h2 ⊢
  have hfields := memoryCacheEntry_ok_fields key v1 ttl amc now1 e1 henc1
  have hlive1 : now2 < e1.expireTime := by rw [hfields.2.2]; exact hlive
  exact set_on_singleton_live maxB amc key e1 v2 ttl now2 hlive1 h2

/-- The entry stored by the witness's second `set` (payload `true` at time 3
with ttl 5: 144 + 4 + 1 + 1 = 150 accounted bytes). -/
def c3E2W : MemoryCacheEntry :=
  { item := Item.text (some (JsValue.bool true))
    stored := 3
    ttl := 5
    expireTime := 8
    byteSize := 150 }

/-- Witness for C3's amended theorem on a concrete live overwrite. -/
theorem c3_overwrite_accounting_witness :
    memoryCacheEntry keyAB (Value.json (JsValue.bool true)) 5 false 3 = Except.ok c3E2W
    ∧ (set ((set ((start (mkConnection 104857600 false)).2) keyAB smallVal 5 0).2)
          keyAB (Value.json (JsValue.bool true)) 5 3).2
        = ⟨104857600, false, some [(keyAB.segment, [(keyAB.id, c3E2W)])],
            (c3E2W.byteSize : Int)⟩ := by
  obtain ⟨e2, henc, hst⟩ :=
    c3_overwrite_accounting_amended 104857600 false keyAB smallVal
      (Value.json (JsValue.bool true)) 5 0 3 rfl rfl (by decide)
  have he : e2 = c3E2W := by
    have h' : (Except.ok e2 : Except CacheError MemoryCacheEntry) = Except.ok c3E2W := by
      rw [← henc]
      rfl
    exact Except.ok.inj h'
  subst he
  exact ⟨henc, hst⟩

/-- Claim C5: `set` fails with the cache-full error (inserting nothing) iff
a byte budget is configured and, after the one-shot sweep, the running
total plus the new entry's size still exceeds it; with `maxByteSize = 0`
no limit is enforced and cache-full is impossible. -/
theorem c5_cache_full_iff (c : Connection) (key : CacheKey) (value : Value) (ttl now : Int) :
    (c.maxByteSize = 0 → (set c key value ttl now).1 ≠ Except.error CacheError.cacheFull)
    ∧ (∀ (store : Store) (envelope : MemoryCacheEntry),
        c.cache = some store → ¬ 2147483647 < ttl →
        memoryCacheEntry key value ttl c.allowMixedContent now = Except.ok envelope →
        (((set c key value ttl now).1 = Except.error CacheError.cacheFull) ↔
          (c.maxByteSize ≠ 0 ∧ (c.maxByteSize : Int)
             < (sweepPair now (preStore store key, preBytes c store key now)).2
               + (envelope.byteSize : Int)))
        ∧ ((set c key value ttl now).1 = Except.error CacheError.cacheFull →
            (set c key value ttl now).2
              = { c with cache := some (sweepStore now (preStore store key))
                         byteSize := (sweepPair now (preStore store key,
                                        preBytes c store key now)).2 })) := by
  constructor
  · intro h0 hbad
    unfold set at hbad
    split at hbad
    · simp at hbad
    · split at hbad
      · simp at hbad
      · split at hbad
        · rename_i e henc
          have he := memoryCacheEntry_error_is_encoding _ _ _ _ _ _ henc
          have : e = CacheError.cacheFull := by simpa using hbad
          rw [this] at he
          exact CacheError.noConfusion he
        · simp [setStore, afterPressure, overBudget, h0] at hbad
  · intro store envelope hc httl henc
    simp only [set, hc]
    rw [if_neg httl]
    simp only [henc]
    unfold setStore afterPressure
    by_cases hb1 : overBudget c.maxByteSize (preBytes c store key now) envelope.byteSize = true
    · rw [if_pos hb1]
      by_cases hb2 : overBudget c.maxByteSize
          (sweepPair now (preStore store key, preBytes c store key now)).2
          envelope.byteSize = true
      · rw [if_pos hb2]
        exact ⟨iff_of_true rfl ((overBudget_iff _ _ _).mp hb2), fun _ => rfl⟩
      · rw [if_neg hb2]
        constructor
        · apply iff_of_false (by simp)
          intro hrhs
          exact hb2 ((overBudget_iff _ _ _).mpr hrhs)
        · intro hbad
          simp at hbad
    · rw [if_neg hb1, if_neg hb1]
      constructor
      · apply iff_of_false (by simp)
        intro hrhs
        have hnn := expiredBytes_nonneg now (preStore store key)
        have hsp : (sweepPair now (preStore store key, preBytes c store key now)).2
            = preBytes c store key now - expiredBytes now (preStore store key) := rfl
        rw [hsp] at hrhs
        have hlt : (c.maxByteSize : Int)
            < preBytes c store key now + (envelope.byteSize : Int) := by omega
        exact hb1 ((overBudget_iff c.maxByteSize (preBytes c store key now)
          envelope.byteSize).mpr ⟨hrhs.1, hlt⟩)
      · intro hbad
        simp at hbad

/-- The live 147-byte entry `c2Before` holds. -/
def c5Entry1 : MemoryCacheEntry :=
  { item := Item.text (some (JsValue.num 1))
    stored := 0
    ttl := 1000
    expireTime := 1000
    byteSize := 147 }

/-- The store inside `c2Before`. -/
def c5Store : Store := [("a", [("b", c5Entry1)])]

/-- The 208-byte envelope of the failing oversized write. -/
def c5BigEnv : MemoryCacheEntry :=
  { item := Item.text (some (JsValue.str "aaaaaaaaaaaaaaaaaaaaaaaaaaaaaaaaaaaaaaaaaaaaaaaaaaaaaaaaaaaa"))
    stored := 1
    ttl := 1000
    expireTime := 1001
    byteSize := 208 }

/-- Witness for C5 at a concrete over-budget write. -/
theorem c5_cache_full_iff_witness :
    ((set c2Before keyAB bigVal 1000 1).1 = Except.error CacheError.cacheFull) ↔
      (c2Before.maxByteSize ≠ 0 ∧ (c2Before.maxByteSize : Int)
        < (sweepPair 1 (preStore c5Store keyAB, preBytes c2Before c5Store keyAB 1)).2
          + (c5BigEnv.byteSize : Int)) :=
  ((c5_cache_full_iff c2Before keyAB bigVal 1000 1).2 c5Store c5BigEnv rfl
    (by decide) rfl).1

/-- Claim C6: a successful `set` followed immediately by `get` on the same
key (ttl within bounds) returns the canonical encoding of the original
value — the byte-identical buffer on the mixed-content path, the
structured round-trip image otherwise — with the stored timestamp and
the requested ttl. -/
theorem c6_set_get_roundtrip (c c' : Connection) (key : CacheKey) (value : Value)
    (ttl now : Int) (h0 : 0 ≤ ttl)
    (hset : set c key value ttl now = (Except.ok (), c')) :
    (get c' key now).1
      = Except.ok (some { item := canonicalValue c.allowMixedContent value
                          stored := now
                          ttl := ttl }) := by
  unfold set at hset
  split at hset
  · simp at hset
  · rename_i store hcache
    split at hset
    · simp at hset
    · split at hset
      · simp at hset
      · rename_i envelope henc
        unfold setStore at hset
        split at hset
        · simp at hset
        · have hsnd := congrArg Prod.snd hset
          dsimp only at hsnd
          subst hsnd
          have hfields :=
            memoryCacheEntry_ok_fields key value ttl c.allowMixedContent now envelope henc
          have hitem :=
            memoryCacheEntry_ok_item key value ttl c.allowMixedContent now envelope henc
          simp only [get, insertEnv, alookup_aset_self]
          rw [hfields.2.2]
          rw [if_neg (show ¬ now + ttl < now by omega)]
          cases hi : envelope.item with
          | buffer bytes =>
              simp only [hi, decodeItem, Option.some.injEq] at hitem
              simp only [hi]
              rw [hitem, hfields.1, hfields.2.1]
          | text ov =>
              cases ov with
              | some v =>
                  simp only [hi, decodeItem, Option.some.injEq] at hitem
                  simp only [hi]
                  rw [hitem, hfields.1, hfields.2.1]
              | none =>
                  rw [hi] at hitem
                  exact Option.noConfusion hitem

/-- The entry stored by the witness's `set` (payload `7`, stored at 0,
ttl 5). -/
def c6Entry : MemoryCacheEntry :=
  { item := Item.text (some (JsValue.num 7))
    stored := 0
    ttl := 5
    expireTime := 5
    byteSize := 147 }

/-- The state after the witness's `set`. -/
def c6Conn : Connection := ⟨104857600, false, some [("a", [("b", c6Entry)])], 147⟩

/-- Witness for C6: store `7` under `("a", "b")` with ttl 5 at time 0, read
it back at time 0. -/
theorem c6_set_get_roundtrip_witness :
    (get c6Conn keyAB 0).1
      = Except.ok (some { item := Value.json (JsValue.num 7), stored := 0, ttl := 5 }) :=
  c6_set_get_roundtrip ((start (mkConnection 104857600 false)).2) c6Conn keyAB
    (Value.json (JsValue.num 7)) 5 0 (by decide) rfl

/-- Claim C7: on a started engine, `set` fails with the invalid-TTL error
exactly when `ttl > 2147483647`; every smaller or equal ttl (the lower
bound 0 included, and even negative ttls) passes the TTL guard. -/
theorem c7_invalid_ttl_iff (c : Connection) (store : Store) (key : CacheKey) (value : Value)
    (ttl now : Int) (h : c.cache = some store) :
    (set c key value ttl now).1 = Except.error CacheError.invalidTTL ↔ 2147483647 < ttl := by
  simp only [set, h]
  by_cases httl : 2147483647 < ttl
  · simp [httl]
  · rw [if_neg httl]
    apply iff_of_false _ httl
    split
    · rename_i e henc
      intro hbad
      have he : e = CacheError.invalidTTL := by simpa using hbad
      have h2 := memoryCacheEntry_error_is_encoding _ _ _ _ _ _ henc
      rw [he] at h2
      exact CacheError.noConfusion h2
    · intro hbad
      unfold setStore at hbad
      split at hbad <;> simp at hbad

/-- Witness for C7 at a concrete over-bound ttl. -/
theorem c7_invalid_ttl_iff_witness :
    (set connEx keyAB smallVal 2147483648 0).1 = Except.error CacheError.invalidTTL :=
  (c7_invalid_ttl_iff connEx [("a", [("b", entryEx)])] keyAB smallVal 2147483648 0 rfl).mpr
    (by decide)

/-- Claim C8: `start` always succeeds; starting an already-started engine
preserves the store and total unchanged, while starting a stopped engine
produces an empty store and a zero total. -/
theorem c8_start_idempotent (c : Connection) :
    (start c).1 = Except.ok ()
    ∧ (∀ store, c.cache = some store → (start c).2 = c)
    ∧ (c.cache = none → (start c).2 = { c with cache := some [], byteSize := 0 }) := by
  refine ⟨?_, ?_, ?_⟩
  · unfold start
    split <;> rfl
  · intro store h
    simp [start, h]
  · intro h
    simp [start, h]

/-- Witness for C8 on a loaded started engine and on a fresh one. -/
theorem c8_start_idempotent_witness :
    (start connEx).2 = connEx
    ∧ (start (mkConnection 100 false)).2
        = { mkConnection 100 false with cache := some [], byteSize := 0 } :=
  ⟨(c8_start_idempotent connEx).2.1 [("a", [("b", entryEx)])] rfl,
   (c8_start_idempotent (mkConnection 100 false)).2.2 rfl⟩

/-- Claim C9: while the engine is not started, `get`, `set` and `drop` all
fail with the not-started error and leave the state untouched. -/
theorem c9_not_started_ops (c : Connection) (key : CacheKey) (value : Value) (ttl now : Int)
    (h : c.cache = none) :
    get c key now = (Except.error CacheError.notStarted, c)
    ∧ set c key value ttl now = (Except.error CacheError.notStarted, c)
    ∧ drop c key = (Except.error CacheError.notStarted, c) := by
  refine ⟨?_, ?_, ?_⟩ <;> simp [get, set, drop, h]

/-- Witness for C9 on a never-started connection. -/
theorem c9_not_started_ops_witness :
    get (mkConnection 100 false) keyAB 0
        = (Except.error CacheError.notStarted, mkConnection 100 false)
    ∧ set (mkConnection 100 false) keyAB smallVal 1 0
        = (Except.error CacheError.notStarted, mkConnection 100 false)
    ∧ drop (mkConnection 100 false) keyAB
        = (Except.error CacheError.notStarted, mkConnection 100 false) :=
  c9_not_started_ops (mkConnection 100 false) keyAB smallVal 1 0 rfl

/-- Claim C10: an entry whose snapshot is a raw buffer can never produce the
bad-value-content decoding error on `get`: the read either reports the
entry expired (absent) or returns the buffer as-is, no decode attempted. -/
theorem c10_buffer_get_no_decode_error (c : Connection) (store : Store) (seg : Segment)
    (e : MemoryCacheEntry) (key : CacheKey) (now : Int) (bytes : List Nat)
    (hc : c.cache = some store) (hseg : alookup store key.segment = some seg)
    (hid : alookup seg key.id = some e) (hitem : e.item = Item.buffer bytes) :
    (get c key now).1 ≠ Except.error CacheError.badValueContent
    ∧ ((get c key now).1 = Except.ok none
       ∨ (get c key now).1
           = Except.ok (some { item := Value.buf bytes, stored := e.stored, ttl := e.ttl })) := by
  simp only [get, hc, hseg, hid, hitem]
  split
  · exact ⟨by simp, Or.inl rfl⟩
  · exact ⟨by simp, Or.inr rfl⟩

/-- Witness for C10 on a live stored buffer entry. -/
theorem c10_buffer_get_no_decode_error_witness :
    (get bufConnEx keyAB 0).1 ≠ Except.error CacheError.badValueContent
    ∧ ((get bufConnEx keyAB 0).1 = Except.ok none
       ∨ (get bufConnEx keyAB 0).1
           = Except.ok (some { item := Value.buf [1, 2, 3], stored := 0, ttl := 5 })) :=
  c10_buffer_get_no_decode_error bufConnEx [("a", [("b", bufEntryEx)])] [("b", bufEntryEx)]
    bufEntryEx keyAB 0 [1, 2, 3] rfl rfl rfl rfl

end MemoryCache
